import Mathlib

/-!
Shallow embedding of src/React.py: a LangGraph ReAct-style chatbot with a
bounded, persisted conversation memory.  Messages, the tool registry, the
orchestration loop, and the ConversationMemory class are translated into
executable Lean definitions; the model client stays an opaque oracle
parameter.  Python integers are Int, Python strings are String, Python list
slicing is made explicit, and fallible operations return Option or Except.
-/

/-- Python-style lowercasing of a string, one character at a time
(models the str.lower calls in search_memory). -/
def pyLower (s : String) : String := String.mk (s.data.map Char.toLower)

/-- Python substring containment: the expression needle in haystack on strings. -/
def pyIn (needle haystack : String) : Bool := decide (needle.data <:+: haystack.data)

/-- Python list slicing l[-limit:] for an arbitrary integer limit.
For limit greater than 0 this keeps the last limit elements; for limit equal
to 0 the slice l[0:] is the whole list; for negative limit the slice drops
the first (-limit) elements. -/
def pySliceLast {α : Type} (limit : Int) (l : List α) : List α :=
  if 0 < limit then l.drop (l.length - limit.toNat)
  else if limit = 0 then l
  else l.drop (-limit).toNat

/-- Roles a chat message can carry (SystemMessage, HumanMessage, AIMessage,
ToolMessage in langchain terms). -/
inductive Role
  | system
  | user
  | assistant
  | tool
deriving DecidableEq

/-- A Python value passed as a tool argument or returned by a tool. -/
inductive PyValue
  | int (n : Int)
  | str (s : String)
deriving DecidableEq

/-- A tool-call request attached to an assistant message: tool name, named
arguments, and a correlation identifier. -/
structure ToolCall where
  name : String
  args : List (String × PyValue)
  id : String
deriving DecidableEq

/-- A chat message.  Every message has a role and textual content; assistant
messages may carry tool-call requests; tool messages carry the correlation
identifier of the request they answer and a status field. -/
structure Message where
  role : Role
  content : String
  tool_calls : List ToolCall := []
  tool_call_id : Option String := none
  status : String := "success"
deriving DecidableEq

/-- langchain SystemMessage constructor. -/
def SystemMessage (content : String) : Message :=
  { role := Role.system, content := content }

/-- langchain HumanMessage constructor. -/
def HumanMessage (content : String) : Message :=
  { role := Role.user, content := content }

/-- The system instruction built inside model_call in src/React.py. -/
def system_message : Message :=
  SystemMessage
    ("You are my personal AI agent with memory.\n" ++
     "1. Answer accurately\n" ++
     "2. Use previous context\n" ++
     "3. Use tools when required\n" ++
     "4. Stay conversational")

/-- The add tool of src/React.py: add two numbers. -/
def add (a b : Int) : Int := a + b

/-- The subtract tool of src/React.py: subtract two numbers. -/
def subtract (a b : Int) : Int := a - b

/-- The multiply tool of src/React.py: multiply two numbers. -/
def multiply (a b : Int) : Int := a * b

/-- The TOOLS registry of src/React.py as a name-to-function lookup. -/
def resolveTool : String → Option (Int → Int → Int)
  | "add" => some add
  | "subtract" => some subtract
  | "multiply" => some multiply
  | _ => none

/-- Extract an integer argument by name from a tool call's argument mapping;
none models a missing argument or a schema type mismatch. -/
def getIntArg (args : List (String × PyValue)) (key : String) : Option Int :=
  match args.lookup key with
  | some (PyValue.int n) => some n
  | _ => none

/-- Modelled from the spec: the tool invocation contract of the Tool
Registry (langchain binds the declared schema a: int, b: int of each tool in
src/React.py; the binding code itself is library code, not in src/).
Unknown tool names and argument mismatches yield an error value, never a
raised fault. -/
def invokeTool (name : String) (args : List (String × PyValue)) : Except String PyValue :=
  match resolveTool name with
  | none => Except.error (name ++ " is not a valid tool.")
  | some f =>
    match getIntArg args "a" with
    | none => Except.error ("Invalid arguments for tool " ++ name ++ ".")
    | some a =>
      match getIntArg args "b" with
      | none => Except.error ("Invalid arguments for tool " ++ name ++ ".")
      | some b => Except.ok (PyValue.int (f a b))

/-- Render a tool's resulting value as message text. -/
def renderPyValue : PyValue → String
  | PyValue.int n => toString n
  | PyValue.str s => s

/-- Modelled from the spec: the per-request behaviour of the prebuilt
ToolNode used at src/React.py line 125 (langgraph library code, not in
src/): each tool-call request is answered by a tool message correlated by
the request identifier; an invocation error is converted into a tool
message carrying a failure indicator instead of being raised. -/
def runToolCall (tc : ToolCall) : Message :=
  match invokeTool tc.name tc.args with
  | Except.ok v => { role := Role.tool, content := renderPyValue v, tool_call_id := some tc.id }
  | Except.error e =>
      { role := Role.tool, content := e, tool_call_id := some tc.id, status := "error" }

/-- The message sequence model_call sends to the model: the system
instruction prepended to the state's messages.  This is the spec's
Conversation State (system prompt, then history and new turns). -/
def model_payload (messages : List Message) : List Message :=
  system_message :: messages

/-- The agent_calling node of src/React.py: invoke the model on the system
instruction plus the state's messages and append the response (the
add_messages reducer merges the returned singleton by appending). -/
def model_call (oracle : List Message → Message) (messages : List Message) : List Message :=
  messages ++ [oracle (model_payload messages)]

/-- should_continue of src/React.py: inspect the last message and route to
the tools node when it carries tool calls; none models the IndexError on an
empty message list. -/
def should_continue (messages : List Message) : Option String :=
  match messages.getLast? with
  | none => none
  | some last_message =>
      if last_message.tool_calls ≠ [] then some "continue" else some "end"

/-- The tools node: dispatch every tool call of the last message in order
and append the resulting tool messages. -/
def tool_node (messages : List Message) : List Message :=
  match messages.getLast? with
  | none => messages
  | some last_message => messages ++ last_message.tool_calls.map runToolCall

/-- One run of the compiled graph app of src/React.py, with explicit fuel:
agent_calling, then the conditional edge on should_continue, looping through
the tools node back to agent_calling until should_continue answers end.
none models a run that has not terminated within the given fuel. -/
def app_invoke (oracle : List Message → Message) : Nat → List Message → Option (List Message)
  | 0, _ => none
  | fuel + 1, messages =>
    if should_continue (model_call oracle messages) = some "continue" then
      app_invoke oracle fuel (tool_node (model_call oracle messages))
    else
      some (model_call oracle messages)

/-- One persisted conversation record: timestamp, user text, agent text. -/
structure ConversationRecord where
  timestamp : String
  user : String
  agent : String
deriving DecidableEq

/-- The structured content of the persisted memory file
(conversations plus a last_updated marker). -/
structure StoredData where
  conversations : List ConversationRecord
  last_updated : String
deriving DecidableEq

/-- The state of the persisted memory file as load_memory observes it:
absent, unreadable or unparsable (with the exception text), or parsed. -/
inductive FileContent
  | absent
  | corrupt (err : String)
  | valid (data : StoredData)

/-- The in-memory state of the ConversationMemory class of src/React.py. -/
structure ConversationMemory where
  conversation_history : List ConversationRecord
deriving DecidableEq

/-- load_memory of src/React.py: an absent file leaves the history as it
is; a read or parse failure is caught, logged and leaves the history as it
is; a parsed file replaces the history with its conversations list. -/
def load_memory (m : ConversationMemory) (fc : FileContent) : ConversationMemory :=
  match fc with
  | FileContent.absent => m
  | FileContent.corrupt _ => m
  | FileContent.valid d => { m with conversation_history := d.conversations }

/-- The ConversationMemory constructor: start with an empty history, then
load from the persisted file. -/
def ConversationMemory.init (fc : FileContent) : ConversationMemory :=
  load_memory { conversation_history := [] } fc

/-- save_memory of src/React.py: serialize the full record sequence plus a
last_updated timestamp. -/
def save_memory (m : ConversationMemory) (now : String) : StoredData :=
  { conversations := m.conversation_history, last_updated := now }

/-- add_conversation of src/React.py: append a record with the current
timestamp, then keep the slice history[-50:]. -/
def add_conversation (m : ConversationMemory) (user_input agent_response now : String) :
    ConversationMemory :=
  { m with
    conversation_history :=
      pySliceLast 50
        (m.conversation_history ++
          [{ timestamp := now, user := user_input, agent := agent_response }]) }

/-- The clear-memory command of main in src/React.py: reset the history to
the empty list. -/
def clear_memory (m : ConversationMemory) : ConversationMemory :=
  { m with conversation_history := [] }

/-- get_context_messages of src/React.py: walk the slice history[-limit:]
in order, appending a HumanMessage with the user text and a SystemMessage
quoting the previous agent response for each record. -/
def get_context_messages (m : ConversationMemory) (limit : Int) : List Message :=
  (pySliceLast limit m.conversation_history).foldl
    (fun msgs conv =>
      msgs ++ [HumanMessage conv.user,
               SystemMessage ("Previous response: " ++ conv.agent)])
    []

/-- search_memory of src/React.py: keep the records whose lowercased user
or agent text contains the lowercased keyword. -/
def search_memory (m : ConversationMemory) (keyword : String) : List ConversationRecord :=
  m.conversation_history.filter
    (fun conv =>
      pyIn (pyLower keyword) (pyLower conv.user) ||
      pyIn (pyLower keyword) (pyLower conv.agent))

/-- The initial graph input built by main in src/React.py: memory context
(default limit 5) followed by the new user message. -/
def main_inputs (memory : ConversationMemory) (user_prompt : String) : List Message :=
  get_context_messages memory 5 ++ [HumanMessage user_prompt]

/-- A sequence of add_conversation calls, one per record, in order. -/
def addAll (m : ConversationMemory) (rs : List ConversationRecord) : ConversationMemory :=
  rs.foldl (fun acc r => add_conversation acc r.user r.agent r.timestamp) m

/-- The agent_response capture of print_stream_with_memory in src/React.py:
each streamed state overwrites agent_response with the content of its last
message; none models the IndexError on a state with no messages; an empty
stream leaves the initial empty string. -/
def captureAgentResponse (stream : List (List Message)) : Option String :=
  stream.foldlM (fun _acc ms => (ms.getLast?).map Message.content) ""

/-- print_stream_with_memory of src/React.py, with the persisted file made
explicit: when the captured agent response is non-empty the turn is added
to memory and the whole store is saved; otherwise memory and file are left
untouched. -/
def print_stream_with_memory (stream : List (List Message)) (memory : ConversationMemory)
    (file : Option StoredData) (user_input tsAdd tsSave : String) :
    Option (ConversationMemory × Option StoredData) :=
  match captureAgentResponse stream with
  | none => none
  | some agent_response =>
    if agent_response = "" then some (memory, file)
    else
      some (add_conversation memory user_input agent_response tsAdd,
            some (save_memory (add_conversation memory user_input agent_response tsAdd) tsSave))

/-- Folding an append of rendered blocks equals an initial segment followed
by the flattened rendering. -/
theorem foldl_append_flatMap {α β : Type} (f : α → List β) :
    ∀ (l : List α) (init : List β),
      l.foldl (fun acc x => acc ++ f x) init = init ++ l.flatMap f
  | [], init => by simp
  | x :: xs, init => by
    simp only [List.foldl_cons, List.flatMap_cons]
    rw [foldl_append_flatMap f xs (init ++ f x)]
    simp [List.append_assoc]

/-- For a positive limit, the slice l[-limit:] keeps the last limit
elements: reverse, take, reverse. -/
theorem pySliceLast_pos {α : Type} (limit : Int) (h : 0 < limit) (l : List α) :
    pySliceLast limit l = (l.reverse.take limit.toNat).reverse := by
  rw [pySliceLast, if_pos h]
  exact List.rtake_eq_reverse_take_reverse l limit.toNat

/-- Slicing twice around an append is the same as slicing once at the end. -/
theorem pySliceLast_append_left {α : Type} (k : Int) (hk : 0 < k) (x ys : List α) :
    pySliceLast k (pySliceLast k x ++ ys) = pySliceLast k (x ++ ys) := by
  rw [pySliceLast_pos k hk, pySliceLast_pos k hk, pySliceLast_pos k hk]
  rw [List.reverse_append, List.reverse_reverse, List.reverse_append]
  congr 1
  rw [List.take_append_eq_append_take, List.take_append_eq_append_take, List.take_take]
  rw [Nat.min_eq_left (Nat.sub_le _ _)]

/-- The slice l[-limit:] for a positive limit has at most limit elements. -/
theorem length_pySliceLast_le {α : Type} (k : Int) (hk : 0 < k) (l : List α) :
    (pySliceLast k l).length ≤ k.toNat := by
  rw [pySliceLast_pos k hk]
  simp only [List.length_reverse, List.length_take]
  omega

/-- The slice l[-50:] of a list of at most 50 elements is the list itself. -/
theorem pySliceLast_of_le {α : Type} (l : List α) (h : l.length ≤ 50) :
    pySliceLast 50 l = l := by
  rw [pySliceLast, if_pos (by norm_num : (0 : Int) < 50)]
  have h0 : l.length - (50 : Int).toNat = 0 := by
    omega
  rw [h0, List.drop_zero]

/-- Evolving a memory whose history respects the cap by a sequence of
add_conversation calls keeps exactly the last 50 of the appended records. -/
theorem addAll_conversation_history :
    ∀ (rs : List ConversationRecord) (m : ConversationMemory),
      m.conversation_history.length ≤ 50 →
      (addAll m rs).conversation_history = pySliceLast 50 (m.conversation_history ++ rs)
  | [], m, h => by
    simp [addAll, pySliceLast_of_le _ h]
  | r :: rs, m, h => by
    have hstep : addAll m (r :: rs)
        = addAll (add_conversation m r.user r.agent r.timestamp) rs := rfl
    have hrec : ({ timestamp := r.timestamp, user := r.user, agent := r.agent }
        : ConversationRecord) = r := rfl
    have hlen : (add_conversation m r.user r.agent r.timestamp).conversation_history.length ≤ 50 := by
      have := length_pySliceLast_le 50 (by norm_num)
        (m.conversation_history ++ [r])
      simpa [add_conversation, hrec, Int.toNat_ofNat] using this
    rw [hstep, addAll_conversation_history rs _ hlen]
    show pySliceLast 50
        (pySliceLast 50 (m.conversation_history ++ [r]) ++ rs)
      = pySliceLast 50 (m.conversation_history ++ (r :: rs))
    rw [pySliceLast_append_left 50 (by norm_num), List.append_assoc]
    rfl

/-- C2 counterexample: load_memory applies no cap, so loading a persisted
file holding 51 records leaves 51 records in memory, violating the claimed
invariant that the count never exceeds 50 after a load. -/
theorem memory_cap_load_counterexample :
    ¬ ((ConversationMemory.init
          (FileContent.valid
            { conversations := List.replicate 51 { timestamp := "t0", user := "u", agent := "a" },
              last_updated := "t1" })).conversation_history.length ≤ 50) := by
  decide

/-- C2 (amended): add_conversation always leaves at most 50 records and the
clear command empties the history, and 51 sequential additions on an
initially empty store retain exactly the 2nd through 51st additions in
chronological order; load_memory, however, adopts the persisted record list
unchanged, so the 50-record cap holds after a load only when the persisted
file itself holds at most 50 records. -/
theorem memory_cap_amended :
    (∀ (m : ConversationMemory) (u a ts : String),
        (add_conversation m u a ts).conversation_history.length ≤ 50) ∧
    (∀ m : ConversationMemory, (clear_memory m).conversation_history.length ≤ 50) ∧
    (∀ rs : List ConversationRecord, rs.length = 51 →
        (addAll (ConversationMemory.init FileContent.absent) rs).conversation_history
            = rs.drop 1 ∧
        (addAll (ConversationMemory.init FileContent.absent) rs).conversation_history.length
            = 50) := by
  refine ⟨?_, ?_, ?_⟩
  · intro m u a ts
    have := length_pySliceLast_le 50 (by norm_num)
      (m.conversation_history ++
        [{ timestamp := ts, user := u, agent := a }])
    simpa [add_conversation] using this
  · intro m
    simp [clear_memory]
  · intro rs hlen
    have hempty : (ConversationMemory.init FileContent.absent).conversation_history = [] := rfl
    have h := addAll_conversation_history rs (ConversationMemory.init FileContent.absent)
      (by rw [hempty]; simp)
    rw [hempty, List.nil_append] at h
    have hslice : pySliceLast 50 rs = rs.drop 1 := by
      rw [pySliceLast, if_pos (by norm_num : (0 : Int) < 50)]
      have : rs.length - (50 : Int).toNat = 1 := by omega
      rw [this]
    constructor
    · rw [h, hslice]
    · rw [h, hslice, List.length_drop, hlen]

/-- C5: save_memory followed by a fresh load on the same storage reproduces
the record sequence exactly (timestamps, user and agent text, in order),
whatever last_updated marker the save stamped. -/
theorem save_load_roundtrip (m : ConversationMemory) (now : String) :
    (ConversationMemory.init (FileContent.valid (save_memory m now))).conversation_history
      = m.conversation_history := rfl

/-- C6: search_memory returns an order-preserving subsequence of the stored
records, and a record is returned exactly when its lowercased user or agent
text contains the lowercased keyword as a substring. -/
theorem search_memory_spec (m : ConversationMemory) (keyword : String) :
    (search_memory m keyword).Sublist m.conversation_history ∧
    ∀ conv : ConversationRecord,
      conv ∈ search_memory m keyword ↔
        conv ∈ m.conversation_history ∧
          (pyIn (pyLower keyword) (pyLower conv.user) = true ∨
           pyIn (pyLower keyword) (pyLower conv.agent) = true) := by
  constructor
  · exact List.filter_sublist _
  · intro conv
    simp [search_memory, List.mem_filter, Bool.or_eq_true]

/-- C6 witness: searching for FOO finds the record whose user text holds
Foo, through search_memory_spec at a concrete store. -/
theorem search_memory_spec_witness :
    ({ timestamp := "t1", user := "Foo alpha", agent := "x" } : ConversationRecord) ∈
      search_memory
        { conversation_history :=
            [{ timestamp := "t1", user := "Foo alpha", agent := "x" },
             { timestamp := "t2", user := "beta", agent := "y" }] } "FOO" :=
  ((search_memory_spec
      { conversation_history :=
          [{ timestamp := "t1", user := "Foo alpha", agent := "x" },
           { timestamp := "t2", user := "beta", agent := "y" }] } "FOO").2
    { timestamp := "t1", user := "Foo alpha", agent := "x" }).mpr
    ⟨by decide, Or.inl (by decide)⟩

/-- C7 counterexample: with limit 0 the Python slice history[-0:] is the
whole history, so get_context_messages renders every stored record instead
of the last zero records, which would be the empty message list. -/
theorem context_messages_limit_zero_counterexample :
    get_context_messages
        { conversation_history := [{ timestamp := "t", user := "u", agent := "a" }] } 0
      ≠ [] ∧
    (get_context_messages
        { conversation_history := [{ timestamp := "t", user := "u", agent := "a" }] } 0).length
      = 2 := by
  constructor
  · decide
  · decide

/-- C7 (amended): for every limit of at least 1, get_context_messages
renders the last limit stored records (all of them when fewer are stored),
oldest first, as exactly two messages per record: a user-turn message
followed by a system-role message quoting the prior agent reply. -/
theorem context_messages_window (m : ConversationMemory) (limit : Int) (h : 1 ≤ limit) :
    get_context_messages m limit
      = ((m.conversation_history.reverse.take limit.toNat).reverse).flatMap
          (fun conv =>
            [HumanMessage conv.user,
             SystemMessage ("Previous response: " ++ conv.agent)]) := by
  rw [get_context_messages, foldl_append_flatMap, List.nil_append,
    pySliceLast_pos limit (by omega)]

/-- C7 witness: context_messages_window applied at a two-record store with
limit 1 renders only the newest record, user message first. -/
theorem context_messages_window_witness :
    get_context_messages
        { conversation_history :=
            [{ timestamp := "t1", user := "u1", agent := "a1" },
             { timestamp := "t2", user := "u2", agent := "a2" }] } 1
      = ((([{ timestamp := "t1", user := "u1", agent := "a1" },
            { timestamp := "t2", user := "u2", agent := "a2" }]
              : List ConversationRecord).reverse.take (1 : Int).toNat).reverse).flatMap
          (fun conv =>
            [HumanMessage conv.user,
             SystemMessage ("Previous response: " ++ conv.agent)]) :=
  context_messages_window
    { conversation_history :=
        [{ timestamp := "t1", user := "u1", agent := "a1" },
         { timestamp := "t2", user := "u2", agent := "a2" }] } 1 (by norm_num)

/-- C9: the constructor starts from an empty history and load_memory never
escalates a failure: an absent file and an unreadable or unparsable file
both leave the history empty, while a parsed file installs its records. -/
theorem load_failures_nonfatal (e : String) (d : StoredData) :
    (ConversationMemory.init FileContent.absent).conversation_history = [] ∧
    (ConversationMemory.init (FileContent.corrupt e)).conversation_history = [] ∧
    (ConversationMemory.init (FileContent.valid d)).conversation_history = d.conversations :=
  ⟨rfl, rfl, rfl⟩

/-- C2 witness: memory_cap_amended applied to 51 concrete identical
additions on an initially empty store. -/
theorem memory_cap_amended_witness :
    (addAll (ConversationMemory.init FileContent.absent)
        (List.replicate 51 { timestamp := "t", user := "u", agent := "a" })).conversation_history
      = (List.replicate 51
          ({ timestamp := "t", user := "u", agent := "a" } : ConversationRecord)).drop 1 ∧
    (addAll (ConversationMemory.init FileContent.absent)
        (List.replicate 51 { timestamp := "t", user := "u", agent := "a" })).conversation_history.length
      = 50 :=
  memory_cap_amended.2.2 _ (by decide)

/-- C8: through the registry, the registered tools compute exact integer
addition, subtraction and multiplication on schema-conforming arguments. -/
theorem registered_tools_arithmetic (a b : Int) :
    invokeTool "add" [("a", PyValue.int a), ("b", PyValue.int b)]
        = Except.ok (PyValue.int (a + b)) ∧
    invokeTool "subtract" [("a", PyValue.int a), ("b", PyValue.int b)]
        = Except.ok (PyValue.int (a - b)) ∧
    invokeTool "multiply" [("a", PyValue.int a), ("b", PyValue.int b)]
        = Except.ok (PyValue.int (a * b)) :=
  ⟨rfl, rfl, rfl⟩

/-- C4: a tool call whose name is unknown to the registry or whose
arguments miss the declared integer operands never yields a success value;
the dispatcher converts the failure into a tool-role message that carries
the error status and the request's correlation identifier. -/
theorem malformed_tool_call_error_result (tc : ToolCall)
    (h : resolveTool tc.name = none ∨ getIntArg tc.args "a" = none ∨
         getIntArg tc.args "b" = none) :
    (invokeTool tc.name tc.args).isOk = false ∧
    (runToolCall tc).role = Role.tool ∧
    (runToolCall tc).status = "error" ∧
    (runToolCall tc).tool_call_id = some tc.id := by
  have herr : ∃ e, invokeTool tc.name tc.args = Except.error e := by
    rw [invokeTool]
    rcases h with h | h | h
    · rw [h]; exact ⟨_, rfl⟩
    · cases hres : resolveTool tc.name with
      | none => exact ⟨_, rfl⟩
      | some f => rw [h]; exact ⟨_, rfl⟩
    · cases hres : resolveTool tc.name with
      | none => exact ⟨_, rfl⟩
      | some f =>
        cases ha : getIntArg tc.args "a" with
        | none => exact ⟨_, rfl⟩
        | some a => rw [h]; exact ⟨_, rfl⟩
  obtain ⟨e, he⟩ := herr
  rw [runToolCall, he]
  exact ⟨rfl, rfl, rfl, rfl⟩

/-- C4 witness: malformed_tool_call_error_result at a request for the
unregistered tool bogus. -/
theorem malformed_tool_call_witness :
    (invokeTool "bogus" []).isOk = false ∧
    (runToolCall { name := "bogus", args := [], id := "id1" }).role = Role.tool ∧
    (runToolCall { name := "bogus", args := [], id := "id1" }).status = "error" ∧
    (runToolCall { name := "bogus", args := [], id := "id1" }).tool_call_id = some "id1" :=
  malformed_tool_call_error_result { name := "bogus", args := [], id := "id1" } (Or.inl rfl)

/-- The routing decision of should_continue, read off the last message:
continue exactly when it carries at least one tool call. -/
theorem should_continue_iff (ms : List Message) (m0 : Message)
    (hlast : ms.getLast? = some m0) :
    should_continue ms = some "continue" ↔ m0.tool_calls ≠ [] := by
  rw [should_continue, hlast]
  by_cases hc : m0.tool_calls = []
  · simp [hc]
  · simp [hc]

/-- Whenever a fuelled run of the graph returns, the last message of the
returned state carries no tool calls. -/
theorem app_invoke_no_pending (oracle : List Message → Message) :
    ∀ (fuel : Nat) (messages final : List Message),
      app_invoke oracle fuel messages = some final →
      ∃ m0 : Message, final.getLast? = some m0 ∧ m0.tool_calls = []
  | 0, messages, final, h => by simp [app_invoke] at h
  | fuel + 1, messages, final, h => by
    simp only [app_invoke] at h
    by_cases hc : should_continue (model_call oracle messages) = some "continue"
    · rw [if_pos hc] at h
      exact app_invoke_no_pending oracle fuel _ final h
    · rw [if_neg hc] at h
      have h' : model_call oracle messages = final := by injection h
      refine ⟨oracle (model_payload messages), ?_, ?_⟩
      · rw [← h', model_call]
        exact List.getLast?_concat _
      · by_contra htc
        have hlast : (model_call oracle messages).getLast?
            = some (oracle (model_payload messages)) := by
          rw [model_call]
          exact List.getLast?_concat _
        exact hc ((should_continue_iff _ _ hlast).mpr htc)

/-- The tools node only ever appends to the state. -/
theorem prefix_tool_node (ms : List Message) : ms <+: tool_node ms := by
  rw [tool_node]
  split
  · exact List.prefix_refl _
  · exact List.prefix_append _ _

/-- A fuelled run of the graph only ever appends to the state it was given. -/
theorem app_invoke_state_prefix (oracle : List Message → Message) :
    ∀ (fuel : Nat) (messages final : List Message),
      app_invoke oracle fuel messages = some final → messages <+: final
  | 0, messages, final, h => by simp [app_invoke] at h
  | fuel + 1, messages, final, h => by
    simp only [app_invoke] at h
    by_cases hc : should_continue (model_call oracle messages) = some "continue"
    · rw [if_pos hc] at h
      have h1 := app_invoke_state_prefix oracle fuel _ final h
      have h2 : messages <+: model_call oracle messages := by
        rw [model_call]
        exact List.prefix_append _ _
      exact (h2.trans (prefix_tool_node _)).trans h1
    · rw [if_neg hc] at h
      have h' : model_call oracle messages = final := by injection h
      rw [← h', model_call]
      exact List.prefix_append _ _

/-- C1: the loop hands control to tool dispatch exactly when the model's
last response carries at least one tool-call request, and any state a
terminating run returns ends in a message with zero pending tool calls. -/
theorem loop_final_message_no_tool_calls (oracle : List Message → Message) (fuel : Nat)
    (messages final : List Message) (h : app_invoke oracle fuel messages = some final) :
    (∀ (ms : List Message) (m0 : Message), ms.getLast? = some m0 →
        (should_continue ms = some "continue" ↔ m0.tool_calls ≠ [])) ∧
    ∃ m0 : Message, final.getLast? = some m0 ∧ m0.tool_calls = [] :=
  ⟨fun ms m0 hlast => should_continue_iff ms m0 hlast,
   app_invoke_no_pending oracle fuel messages final h⟩

/-- C1 witness: loop_final_message_no_tool_calls on a one-step run whose
model answers with a plain text message. -/
theorem loop_final_message_witness :
    ∃ m0 : Message,
      ([{ role := Role.assistant, content := "done" }] : List Message).getLast? = some m0 ∧
      m0.tool_calls = [] :=
  (loop_final_message_no_tool_calls (fun _ => { role := Role.assistant, content := "done" })
      1 [] [{ role := Role.assistant, content := "done" }] (by decide)).2

/-- C3: the spec's Conversation State is the system instruction followed by
the threaded messages (model_call rebuilds exactly this sequence for every
model invocation); its first element is always the system instruction
message, and a terminating run only ever appends to it, never reordering or
truncating. -/
theorem conversation_state_system_first (oracle : List Message → Message) (fuel : Nat)
    (messages final : List Message) (h : app_invoke oracle fuel messages = some final) :
    (∀ ms : List Message, (model_payload ms).head? = some system_message) ∧
    model_payload messages <+: model_payload final := by
  constructor
  · intro ms
    rfl
  · obtain ⟨t, ht⟩ := app_invoke_state_prefix oracle fuel messages final h
    refine ⟨t, ?_⟩
    rw [model_payload, model_payload, ← ht]
    rfl

/-- C3 witness: conversation_state_system_first on a one-step run starting
from a single user message. -/
theorem conversation_state_system_first_witness :
    (model_payload []).head? = some system_message ∧
    model_payload [HumanMessage "hi"]
      <+: model_payload [HumanMessage "hi", { role := Role.assistant, content := "done" }] :=
  ⟨(conversation_state_system_first (fun _ => { role := Role.assistant, content := "done" })
      1 [HumanMessage "hi"] [HumanMessage "hi", { role := Role.assistant, content := "done" }]
      (by decide)).1 [],
   (conversation_state_system_first (fun _ => { role := Role.assistant, content := "done" })
      1 [HumanMessage "hi"] [HumanMessage "hi", { role := Role.assistant, content := "done" }]
      (by decide)).2⟩

/-- C10: when the captured agent response of a completed stream is the
empty string the memory store and the persisted file are left exactly as
they were and no save happens; when it is non-empty the turn is appended
(with the 50-record cap) and the grown store is saved wholesale. -/
theorem empty_response_not_recorded (stream : List (List Message))
    (memory : ConversationMemory) (file : Option StoredData)
    (user_input tsAdd tsSave : String) :
    (captureAgentResponse stream = some "" →
        print_stream_with_memory stream memory file user_input tsAdd tsSave
          = some (memory, file)) ∧
    (∀ r : String, captureAgentResponse stream = some r → r ≠ "" →
        print_stream_with_memory stream memory file user_input tsAdd tsSave
          = some (add_conversation memory user_input r tsAdd,
                  some (save_memory (add_conversation memory user_input r tsAdd) tsSave))) := by
  constructor
  · intro hcap
    rw [print_stream_with_memory, hcap]
    simp
  · intro r hcap hne
    rw [print_stream_with_memory, hcap]
    simp [hne]

/-- C10 witness: empty_response_not_recorded on a stream whose final
message content is empty leaves a fresh memory and an absent file alone. -/
theorem empty_response_not_recorded_witness :
    print_stream_with_memory [[{ role := Role.assistant, content := "" }]]
        { conversation_history := [] } none "hi" "t1" "t2"
      = some ({ conversation_history := [] }, none) :=
  (empty_response_not_recorded [[{ role := Role.assistant, content := "" }]]
      { conversation_history := [] } none "hi" "t1" "t2").1 (by decide)
